import Mathlib

/-!
Shallow embedding of `scripts/download_nnunet_weights.py`.

Strings are modelled as `List Char` at the core (Python `str` is a sequence
of code points, which `List Char` matches), with `String` wrappers where the
source functions take strings.  The small regular-expression engine below
implements exactly the fragment of Python `re` used by the script: sequences
of literals, optional literals, and greedy character-class repetitions with
backtracking; `research` is leftmost search as in `re.search`, `refindall`
the non-overlapping scan of `re.findall`.
-/

/-- The double-quote character, kept out of literals for readability. -/
def qc : Char := Char.ofNat 34

/-- The apostrophe character. -/
def apos : Char := Char.ofNat 39

/-- One element of a regular expression in the fragment the script uses:
a literal (case-insensitive when `ci` is true), an optional literal
(greedy, as Python `x?`), or a greedy repetition of a character class
(`one = true` for `+`, false for `*`; `cap` marks a capturing group). -/
inductive RElem where
  | lit (ci : Bool) (s : List Char)
  | opt (ci : Bool) (s : List Char)
  | cls (p : Char → Bool) (one : Bool) (cap : Bool)

/-- Character comparison, optionally case-insensitive (Python `re.IGNORECASE`). -/
def charEq (ci : Bool) (a b : Char) : Bool :=
  if ci then a.toLower == b.toLower else a == b

/-- Match a literal at the head of the input; return the rest on success. -/
def litMatch (ci : Bool) : List Char → List Char → Option (List Char)
  | [], s => some s
  | _ :: _, [] => none
  | a :: as, b :: bs => if charEq ci a b then litMatch ci as bs else none

/-- Backtracking loop for a greedy class repetition: try consuming `k`
characters, then `k - 1`, ... down to `minLen` (Python greedy `+`/`*`). -/
def tryLens (f : List Char → Option (List (List Char) × List Char))
    (cap : Bool) (s : List Char) (minLen : Nat) :
    Nat → Option (List (List Char) × List Char)
  | 0 =>
    if minLen = 0 then
      match f s with
      | some (caps, rest) => some ((if cap then [([] : List Char)] else []) ++ caps, rest)
      | none => none
    else none
  | k + 1 =>
    if k + 1 < minLen then none
    else
      match f (s.drop (k + 1)) with
      | some (caps, rest) => some ((if cap then [s.take (k + 1)] else []) ++ caps, rest)
      | none => tryLens f cap s minLen k

/-- Match a sequence of `RElem`s at the head of the input, with Python-style
greedy backtracking; returns the captured groups in order and the remaining
input after the match.  `fuel` only needs to exceed the pattern length. -/
def matchSeq : Nat → List RElem → List Char → Option (List (List Char) × List Char)
  | _, [], s => some ([], s)
  | 0, _ :: _, _ => none
  | fu + 1, RElem.lit ci l :: rest, s =>
    match litMatch ci l s with
    | some s2 => matchSeq fu rest s2
    | none => none
  | fu + 1, RElem.opt ci l :: rest, s =>
    match litMatch ci l s with
    | some s2 =>
      match matchSeq fu rest s2 with
      | some r => some r
      | none => matchSeq fu rest s
    | none => matchSeq fu rest s
  | fu + 1, RElem.cls p one cap :: rest, s =>
    tryLens (fun t => matchSeq fu rest t) cap s (if one then 1 else 0)
      (s.takeWhile p).length

/-- `re.search`: try the pattern at position 0, 1, ...; first success wins.
Returns the captured groups of the leftmost match. -/
def searchAux (elems : List RElem) : List Char → Option (List (List Char))
  | [] =>
    match matchSeq (elems.length + 1) elems [] with
    | some (caps, _) => some caps
    | none => none
  | c :: cs =>
    match matchSeq (elems.length + 1) elems (c :: cs) with
    | some (caps, _) => some caps
    | none => searchAux elems cs

/-- `re.search` over a character list. -/
def research (elems : List RElem) (s : List Char) : Option (List (List Char)) :=
  searchAux elems s

/-- `re.findall`: non-overlapping leftmost matches, returning the full matched
text of each.  `fuel` bounds the scan; `s.length + 1` always suffices because
every pattern the script passes here starts with a literal, so each step
consumes at least one character. -/
def findallAux (elems : List RElem) : Nat → List Char → List (List Char)
  | 0, _ => []
  | _ + 1, [] => []
  | fu + 1, c :: cs =>
    match matchSeq (elems.length + 1) elems (c :: cs) with
    | some (_, rest) =>
      let matchedLen := (c :: cs).length - rest.length
      if matchedLen = 0 then findallAux elems fu cs
      else (c :: cs).take matchedLen :: findallAux elems fu rest
    | none => findallAux elems fu cs

/-- `re.findall` over a character list. -/
def refindall (elems : List RElem) (s : List Char) : List (List Char) :=
  findallAux elems (s.length + 1) s

/-- Python `needle in hay` on strings: substring containment. -/
def containsSub (hay needle : List Char) : Bool :=
  match hay with
  | [] => needle.isEmpty
  | _ :: t => needle.isPrefixOf hay || containsSub t needle

/-- Hex digit test (ASCII), as used by percent decoding. -/
def isHexCh (c : Char) : Bool :=
  c.isDigit || ('a' ≤ c && c ≤ 'f') || ('A' ≤ c && c ≤ 'F')

/-- Value of a hex digit. -/
def hexVal (c : Char) : Nat :=
  if c.isDigit then c.toNat - 48 else if 'a' ≤ c then c.toNat - 87 else c.toNat - 55

/-- Decimal digits to a number. -/
def decToNat (ds : List Char) : Nat :=
  ds.foldl (fun a c => a * 10 + (c.toNat - 48)) 0

/-- Hex digits to a number. -/
def hexToNat (ds : List Char) : Nat :=
  ds.foldl (fun a c => a * 16 + hexVal c) 0

/-- Try to read a numeric character reference right after an ampersand:
`#DD...;` or `#xHH...;`.  Returns the decoded character and the number of
characters consumed after the ampersand. -/
def numRef (rest : List Char) : Option (Char × Nat) :=
  match rest with
  | '#' :: r2 =>
    match r2 with
    | c :: r3 =>
      if c == 'x' || c == 'X' then
        let ds := r3.takeWhile isHexCh
        if ds.isEmpty then none
        else
          match r3.drop ds.length with
          | ';' :: _ => some (Char.ofNat (hexToNat ds), 2 + ds.length + 1)
          | _ => none
      else
        let ds := (c :: r3).takeWhile Char.isDigit
        if ds.isEmpty then none
        else
          match (c :: r3).drop ds.length with
          | ';' :: _ => some (Char.ofNat (decToNat ds), 1 + ds.length + 1)
          | _ => none
    | [] => none
  | _ => none

/-- Fuel-based scan for `htmlUnescape`; every step consumes at least one
character, so fuel `length + 1` always suffices. -/
def htmlUnescapeAux : Nat → List Char → List Char
  | 0, l => l
  | _ + 1, [] => []
  | fu + 1, '&' :: rest =>
    if "amp;".data.isPrefixOf rest then '&' :: htmlUnescapeAux fu (rest.drop 4)
    else if "lt;".data.isPrefixOf rest then '<' :: htmlUnescapeAux fu (rest.drop 3)
    else if "gt;".data.isPrefixOf rest then '>' :: htmlUnescapeAux fu (rest.drop 3)
    else if "quot;".data.isPrefixOf rest then qc :: htmlUnescapeAux fu (rest.drop 5)
    else if "apos;".data.isPrefixOf rest then apos :: htmlUnescapeAux fu (rest.drop 5)
    else
      match numRef rest with
      | some (ch, n) => ch :: htmlUnescapeAux fu (rest.drop n)
      | none => '&' :: htmlUnescapeAux fu rest
  | fu + 1, c :: rest => c :: htmlUnescapeAux fu rest

/-- Models the stdlib `html.unescape` on the entities the script's inputs can
contain: the named references amp, lt, gt, quot, apos and semicolon-terminated
numeric references (the stdlib additionally knows the full HTML5 name table). -/
def htmlUnescape (l : List Char) : List Char :=
  htmlUnescapeAux (l.length + 1) l

/-- Fuel-based scan for `listReplace`; every step consumes at least one
character, so fuel `length + 1` always suffices. -/
def listReplaceAux (pat rep : List Char) : Nat → List Char → List Char
  | 0, s => s
  | _ + 1, [] => []
  | fu + 1, c :: cs =>
    if pat.isEmpty then c :: cs
    else if pat.isPrefixOf (c :: cs) then
      rep ++ listReplaceAux pat rep fu ((c :: cs).drop pat.length)
    else c :: listReplaceAux pat rep fu cs

/-- Python `str.replace`: left-to-right, non-overlapping.  The source only
replaces nonempty literals; an empty pattern is returned unchanged here. -/
def listReplace (pat rep s : List Char) : List Char :=
  listReplaceAux pat rep (s.length + 1) s

/-- `decode_possible_url` on characters: HTML-entity unescape, then the
literal escapes for `=`, `&`, and `/`, in the order of the source. -/
def decodeUrlChars (raw : List Char) : List Char :=
  let v := htmlUnescape raw
  let v := listReplace "\\u003d".data "=".data v
  let v := listReplace "\\u0026".data "&".data v
  listReplace "\\/".data "/".data v

/-- `decode_possible_url(raw_value)` from the source. -/
def decode_possible_url (raw : String) : String :=
  String.mk (decodeUrlChars raw.data)

/-- Models `urllib.parse.unquote` for percent sequences denoting code points
below 128 (the stdlib assembles multi-byte UTF-8 percent sequences; the
headers the script meets are ASCII). -/
def unquoteChars : List Char → List Char
  | [] => []
  | '%' :: a :: b :: r2 =>
    if isHexCh a && isHexCh b then
      Char.ofNat (hexVal a * 16 + hexVal b) :: unquoteChars r2
    else '%' :: unquoteChars (a :: b :: r2)
  | '%' :: rest => '%' :: unquoteChars rest
  | c :: rest => c :: unquoteChars rest

/-- UTF-8 bytes of one code point. -/
def utf8Bytes (c : Char) : List Nat :=
  let n := c.toNat
  if n < 128 then [n]
  else if n < 2048 then [192 + n / 64, 128 + n % 64]
  else if n < 65536 then [224 + n / 4096, 128 + (n / 64) % 64, 128 + n % 64]
  else [240 + n / 262144, 128 + (n / 4096) % 64, 128 + (n / 64) % 64, 128 + n % 64]

/-- Uppercase hex digit of a value below 16. -/
def hexDigitU (n : Nat) : Char :=
  if n < 10 then Char.ofNat (48 + n) else Char.ofNat (55 + n)

/-- The always-safe bytes of `urllib.parse.quote_plus` with `safe=""`:
ASCII letters, digits, `_`, `.`, `-`, `~`. -/
def isUrlSafe (b : Nat) : Bool :=
  (48 ≤ b && b ≤ 57) || (65 ≤ b && b ≤ 90) || (97 ≤ b && b ≤ 122) ||
    b == 95 || b == 46 || b == 45 || b == 126

/-- Encode one byte as `quote_plus` does: safe bytes pass, space becomes `+`,
everything else becomes `%XX` with uppercase hex. -/
def quoteByte (b : Nat) : List Char :=
  if isUrlSafe b then [Char.ofNat b]
  else if b == 32 then ['+']
  else ['%', hexDigitU (b / 16), hexDigitU (b % 16)]

/-- `urllib.parse.quote_plus` with empty `safe`, the encoder `urlencode` uses. -/
def quotePlus (s : String) : String :=
  String.mk (((s.data.map utf8Bytes).flatten.map quoteByte).flatten)

/-- `urllib.parse.urlencode` over an insertion-ordered key/value list (the
shape of a Python dict of strings). -/
def urlencode (params : List (String × String)) : String :=
  String.intercalate "&" (params.map (fun p => quotePlus p.1 ++ "=" ++ quotePlus p.2))

/-- Python dict assignment `d[k] = v`: overwrite in place, else append. -/
def dictInsert (d : List (String × String)) (k v : String) : List (String × String) :=
  if d.any (fun p => p.1 == k) then d.map (fun p => if p.1 == k then (k, v) else p)
  else d ++ [(k, v)]

/-- Python `d.setdefault(k, v)`: append only when the key is absent. -/
def dictSetdefault (d : List (String × String)) (k v : String) : List (String × String) :=
  if d.any (fun p => p.1 == k) then d else d ++ [(k, v)]

/-- Python `d.get(k)` on the ordered key/value list. -/
def dictLookup (d : List (String × String)) (k : String) : Option String :=
  match d.find? (fun p => p.1 == k) with
  | some p => some p.2
  | none => none

/-- Python `k in d`. -/
def dictHasKey (d : List (String × String)) (k : String) : Bool :=
  d.any (fun p => p.1 == k)

/-- `"downloadUrl":"([^"]+)"` (case-sensitive). -/
def downloadUrlPat : List RElem :=
  [RElem.lit false "\"downloadUrl\":\"".data, RElem.cls (fun c => c != qc) true true,
   RElem.lit false "\"".data]

/-- `<form[^>]+id="download-form"[^>]+action="([^"]+)"`, IGNORECASE. -/
def formPat1 : List RElem :=
  [RElem.lit true "<form".data, RElem.cls (fun c => c != '>') true false,
   RElem.lit true "id=\"download-form\"".data, RElem.cls (fun c => c != '>') true false,
   RElem.lit true "action=\"".data, RElem.cls (fun c => c != qc) true true,
   RElem.lit true "\"".data]

/-- `<form[^>]+action="([^"]+)"[^>]+id="download-form"`, IGNORECASE. -/
def formPat2 : List RElem :=
  [RElem.lit true "<form".data, RElem.cls (fun c => c != '>') true false,
   RElem.lit true "action=\"".data, RElem.cls (fun c => c != qc) true true,
   RElem.lit true "\"".data, RElem.cls (fun c => c != '>') true false,
   RElem.lit true "id=\"download-form\"".data]

/-- `<input[^>]+type="hidden"[^>]*>`, IGNORECASE. -/
def inputPat : List RElem :=
  [RElem.lit true "<input".data, RElem.cls (fun c => c != '>') true false,
   RElem.lit true "type=\"hidden\"".data, RElem.cls (fun c => c != '>') false false,
   RElem.lit true ">".data]

/-- `name="([^"]+)"`, IGNORECASE. -/
def namePat : List RElem :=
  [RElem.lit true "name=\"".data, RElem.cls (fun c => c != qc) true true,
   RElem.lit true "\"".data]

/-- `value="([^"]*)"`, IGNORECASE. -/
def valuePat : List RElem :=
  [RElem.lit true "value=\"".data, RElem.cls (fun c => c != qc) false true,
   RElem.lit true "\"".data]

/-- Python `\s` on the whitespace the script can meet (ASCII whitespace). -/
def isPySpace (c : Char) : Bool :=
  c == ' ' || c == Char.ofNat 9 || c == Char.ofNat 10 || c == Char.ofNat 13 ||
    c == Char.ofNat 11 || c == Char.ofNat 12

/-- `[0-9A-Za-z_]`. -/
def wordChar (c : Char) : Bool :=
  c.isAlphanum || c == '_'

/-- `name="confirm"\s+value="([0-9A-Za-z_]+)"`. -/
def confirmPat1 : List RElem :=
  [RElem.lit false "name=\"confirm\"".data, RElem.cls isPySpace true false,
   RElem.lit false "value=\"".data, RElem.cls wordChar true true,
   RElem.lit false "\"".data]

/-- The single-quoted form of the confirm pattern. -/
def confirmPat2 : List RElem :=
  [RElem.lit false (apos :: "confirm".data ++ [apos]), RElem.cls isPySpace false false,
   RElem.lit false ":".data, RElem.cls isPySpace false false,
   RElem.lit false [apos], RElem.cls wordChar true true,
   RElem.lit false [apos]]

/-- `"confirm"\s*:\s*"([0-9A-Za-z_]+)"`. -/
def confirmPat3 : List RElem :=
  [RElem.lit false "\"confirm\"".data, RElem.cls isPySpace false false,
   RElem.lit false ":".data, RElem.cls isPySpace false false,
   RElem.lit false "\"".data, RElem.cls wordChar true true,
   RElem.lit false "\"".data]

/-- `confirm=([0-9A-Za-z_]+)&`. -/
def confirmPat4 : List RElem :=
  [RElem.lit false "confirm=".data, RElem.cls wordChar true true,
   RElem.lit false "&".data]

/-- `confirm=([0-9A-Za-z_]+)`. -/
def confirmPat5 : List RElem :=
  [RElem.lit false "confirm=".data, RElem.cls wordChar true true]

/-- `filename\*=UTF-8''([^;]+)` (the encoded Content-Disposition form). -/
def encodedFnamePat : List RElem :=
  [RElem.lit false ("filename*=UTF-8".data ++ [apos, apos]),
   RElem.cls (fun c => c != ';') true true]

/-- `filename="?([^";]+)"?` (the plain Content-Disposition form). -/
def plainFnamePat : List RElem :=
  [RElem.lit false "filename=".data, RElem.opt false "\"".data,
   RElem.cls (fun c => c != qc && c != ';') true true,
   RElem.opt false "\"".data]

/-- The first capture of a leftmost match, if any (`match.group(1)`). -/
def searchGroup1 (elems : List RElem) (s : List Char) : Option (List Char) :=
  match research elems s with
  | some (g :: _) => some g
  | _ => none

/-- An HTTP response as the script observes one: its headers, its body text,
and the cookies it sets on the shared jar. -/
structure HResp where
  headers : List (String × String)
  body : String
  cookies : List (String × String)

/-- `response.headers.get(name, "")`: case-insensitive header lookup with an
empty-string default, as on `email.message.Message`. -/
def headerGet (hs : List (String × String)) (name : String) : String :=
  match hs.find? (fun p => p.1.data.map Char.toLower == name.data.map Char.toLower) with
  | some p => p.2
  | none => ""

/-- `is_download_response(response)` from the source: attachment wins, then
text/html means interstitial, anything else is a download.  Only the two
headers are consulted. -/
def is_download_response (r : HResp) : Bool :=
  let content_disposition := headerGet r.headers "Content-Disposition"
  let content_type := headerGet r.headers "Content-Type"
  if containsSub (content_disposition.data.map Char.toLower) "attachment".data then true
  else if containsSub (content_type.data.map Char.toLower) "text/html".data then false
  else true

/-- `extract_confirm_token(html, cookie_jar)` from the source: first a cookie
whose name starts with `download_warning`, then the five regex patterns in
order. -/
def extract_confirm_token (html_text : String) (jar : List (String × String)) :
    Option String :=
  match jar.find? (fun kv => "download_warning".data.isPrefixOf kv.1.data) with
  | some kv => some kv.2
  | none =>
    match searchGroup1 confirmPat1 html_text.data with
    | some g => some (String.mk g)
    | none =>
      match searchGroup1 confirmPat2 html_text.data with
      | some g => some (String.mk g)
      | none =>
        match searchGroup1 confirmPat3 html_text.data with
        | some g => some (String.mk g)
        | none =>
          match searchGroup1 confirmPat4 html_text.data with
          | some g => some (String.mk g)
          | none =>
            match searchGroup1 confirmPat5 html_text.data with
            | some g => some (String.mk g)
            | none => none

/-- The hidden-input name/value pairs the source collects: every
`<input ... type="hidden" ...>` tag anywhere in the HTML contributes its
`name`/`value` attributes (HTML-unescaped value) to an insertion-ordered
dict; tags missing either attribute are skipped. -/
def hiddenParams (html_text : String) : List (String × String) :=
  (refindall inputPat html_text.data).foldl
    (fun d tag =>
      match searchGroup1 namePat tag, searchGroup1 valuePat tag with
      | some n, some v => dictInsert d (String.mk n) (String.mk (htmlUnescape v))
      | _, _ => d)
    []

/-- The leftmost download-form action match: the id-before-action pattern
first, then the action-before-id pattern (lines 66-76 of the source). -/
def formActionGroup (html_text : String) : Option (List Char) :=
  match searchGroup1 formPat1 html_text.data with
  | some g => some g
  | none => searchGroup1 formPat2 html_text.data

/-- The query parameters the source sends for a download form: the hidden
inputs, then `id` and `export` defaulted only when absent. -/
def formParams (html_text : String) (file_id : String) : List (String × String) :=
  dictSetdefault (dictSetdefault (hiddenParams html_text) "id" file_id)
    "export" "download"

/-- `extract_download_url(html_text, file_id)` from the source. -/
def extract_download_url (html_text : String) (file_id : String) : Option String :=
  match searchGroup1 downloadUrlPat html_text.data with
  | some g => some (decode_possible_url (String.mk g))
  | none =>
    match formActionGroup html_text with
    | some g =>
      let action := String.mk (htmlUnescape g)
      some (action ++ "?" ++ urlencode (formParams html_text file_id))
    | none => none

/-- `extract_filename(response, fallback)` from the source: the encoded
UTF-8 `filename*=` form percent-decoded, else the plain `filename=` form,
else the fallback. -/
def extract_filename (r : HResp) (fallback : String) : String :=
  let content_disposition := headerGet r.headers "Content-Disposition"
  match searchGroup1 encodedFnamePat content_disposition.data with
  | some g => String.mk (unquoteChars g)
  | none =>
    match searchGroup1 plainFnamePat content_disposition.data with
    | some g => String.mk g
    | none => fallback

/-- The body of a response to be persisted: its parsed status
(`getcode()`, `none` when the transport reports none), the parsed
`Content-Length` header (`none` when missing or unparseable, which the
source turns into 0), and its byte stream. -/
structure WResp where
  status : Option Nat
  contentLength : Option Nat
  body : List Nat

/-- The fixed streaming chunk size of the source (1 MiB). -/
def chunkSize : Nat := 1024 * 1024

/-- Fuel-based chunking; every chunk is nonempty, so fuel `length + 1`
always suffices. -/
def chunksOfAux : Nat → List Nat → List (List Nat)
  | 0, _ => []
  | _ + 1, [] => []
  | fu + 1, c :: cs =>
    (c :: cs).take chunkSize :: chunksOfAux fu ((c :: cs).drop chunkSize)

/-- Split a byte stream into the successive chunks `response.read(chunk_size)`
returns. -/
def chunksOf (l : List Nat) : List (List Nat) :=
  chunksOfAux (l.length + 1) l

/-- `stream_download_to_file(response, output_path, append=..., initial_bytes=...)`:
returns the final file content (the chunk loop appends every chunk to the
`"ab"`/`"wb"`-opened file) and the `total_bytes` figure the progress reporting
uses, which gains `initial_bytes` when appending to a known-size range body. -/
def stream_download_to_file (resp : WResp) (fileOnDisk : List Nat)
    (append : Bool) (initial_bytes : Nat) : List Nat × Nat :=
  let parsedLen := match resp.contentLength with | some n => n | none => 0
  let total_bytes := if append && decide (0 < parsedLen) then parsedLen + initial_bytes
    else parsedLen
  let start := if append then fileOnDisk else []
  ((chunksOf resp.body).foldl (fun f ch => f ++ ch) start, total_bytes)

/-- `resumed_response.getcode() or 200`: a missing or falsy status reads as
200. -/
def statusCodeOf (r : WResp) : Nat :=
  match r.status with
  | some 0 => 200
  | some s => s
  | none => 200

/-- `save_download_response(opener, url, headers, response, output_path)`:
`fileOnDisk` is the current content of `output_path` (`none` when absent),
`rangeResult` the outcome of reopening the URL with a `Range` header
(`Except.error code` for an `HTTPError`).  Returns the final content of
`output_path` on success and the re-raised HTTP error code otherwise. -/
def save_download_response (fileOnDisk : Option (List Nat)) (response : WResp)
    (rangeResult : Except Nat WResp) : Except Nat (List Nat) :=
  let existing := match fileOnDisk with | some c => c | none => []
  let existing_size := existing.length
  if existing_size ≤ 0 then
    Except.ok (stream_download_to_file response existing false 0).1
  else
    match rangeResult with
    | Except.error code =>
      if code = 416 then Except.ok existing else Except.error code
    | Except.ok resumed =>
      let status_code := statusCodeOf resumed
      if status_code = 206 then
        Except.ok (stream_download_to_file resumed existing true existing_size).1
      else
        Except.ok (stream_download_to_file resumed existing false 0).1

/-- A simulated network: what each URL answers with.  Transport failures are
not modelled; they propagate out of the source unconditionally. -/
structure Env where
  fetch : String → HResp

/-- The observable request state of one resolution: the `attempts` list the
source maintains, the trace of URLs actually opened, and the cookie jar. -/
structure NetSt where
  attempts : List String
  trace : List String
  jar : List (String × String)

/-- `opener.open(Request(url, headers=...))`: records the request in the
trace and folds the response cookies into the jar. -/
def openUrl (env : Env) (st : NetSt) (url : String) : HResp × NetSt :=
  let r := env.fetch url
  (r, { st with trace := st.trace ++ [url], jar := st.jar ++ r.cookies })

/-- `output_dir / filename` for a POSIX `pathlib.Path`: an absolute filename
replaces the base, anything else is appended after a slash. -/
def joinPath (dir fname : String) : String :=
  if "/".data.isPrefixOf fname.data then fname else dir ++ "/" ++ fname

/-- The two seed URLs of `download_from_google_drive`. -/
def seedUrls (file_id : String) : List String :=
  ["https://drive.google.com/uc?export=download&id=" ++ file_id,
   "https://drive.usercontent.google.com/download?id=" ++ file_id ++ "&export=download"]

/-- The two confirm-token URLs of `download_from_google_drive`. -/
def confirmSeedUrls (file_id token : String) : List String :=
  ["https://drive.google.com/uc?export=download&confirm=" ++ token ++ "&id=" ++ file_id,
   "https://drive.usercontent.google.com/download?id=" ++ file_id ++
     "&export=download&confirm=" ++ token]

/-- Append the URL to `attempts`, open it, classify: on a download response
produce the URL and the output path the source would stream to (persisting
itself is modelled by `save_download_response`). -/
def attemptOpen (env : Env) (fallback outDir : String) (st : NetSt) (url : String) :
    NetSt × HResp × Option (String × String) :=
  let st1 := { st with attempts := st.attempts ++ [url] }
  let (r, st2) := openUrl env st1 url
  if is_download_response r then
    (st2, r, some (url, joinPath outDir (extract_filename r fallback)))
  else (st2, r, none)

/-- The `for confirm_url in confirm_urls` loop. -/
def tryUrlList (env : Env) (fallback outDir : String) :
    NetSt → List String → NetSt × Option (String × String)
  | st, [] => (st, none)
  | st, u :: us =>
    let a := attemptOpen env fallback outDir st u
    match a.2.2 with
    | some s => (a.1, some s)
    | none => tryUrlList env fallback outDir a.1 us

/-- The parser-derived branch of one seed iteration: when the interstitial
yields a URL, open and classify it. -/
def parsedStep (env : Env) (file_id fallback outDir : String) (st2 : NetSt)
    (html_text : String) : NetSt × Option (String × String) :=
  match extract_download_url html_text file_id with
  | some u =>
    let a2 := attemptOpen env fallback outDir st2 u
    (a2.1, a2.2.2)
  | none => (st2, none)

/-- One iteration of the `for base_url in initial_urls` loop: classify the
seed response; on an interstitial, try the parser-derived URL, then the
confirm-token URLs. -/
def processSeed (env : Env) (file_id fallback outDir : String) (st : NetSt)
    (base : String) : NetSt × Option (String × String) :=
  let a := attemptOpen env fallback outDir st base
  match a.2.2 with
  | some s => (a.1, some s)
  | none =>
    let html_text := a.2.1.body
    let b := parsedStep env file_id fallback outDir a.1 html_text
    match b.2 with
    | some s => (b.1, some s)
    | none =>
      match extract_confirm_token html_text b.1.jar with
      | some tok => tryUrlList env fallback outDir b.1 (confirmSeedUrls file_id tok)
      | none => (b.1, none)

/-- The seed loop of `download_from_google_drive`. -/
def seedLoop (env : Env) (file_id fallback outDir : String) :
    NetSt → List String → NetSt × Option (String × String)
  | st, [] => (st, none)
  | st, b :: bs =>
    let p := processSeed env file_id fallback outDir st b
    match p.2 with
    | some s => (p.1, some s)
    | none => seedLoop env file_id fallback outDir p.1 bs

/-- `download_from_google_drive(file_id, output_dir, fallback_filename)` over a
simulated network: returns either the URL that produced a download response
together with the output path streamed to, or the `attempts` list embedded in
the raised `RuntimeError`; paired with the trace of every URL opened. -/
def download_from_google_drive (env : Env) (file_id : String)
    (output_dir : String) (fallback_filename : String) :
    Except (List String) (String × String) × List String :=
  let p := seedLoop env file_id fallback_filename output_dir
    ⟨[], [], []⟩ (seedUrls file_id)
  match p.2 with
  | some s => (Except.ok s, p.1.trace)
  | none => (Except.error p.1.attempts, p.1.trace)

/-- A flat file store: path to byte content. -/
abbrev FileMap := List (String × List Nat)

/-- Read a file (empty for a missing path). -/
def fsRead (fs : FileMap) (path : String) : List Nat :=
  match fs.find? (fun p => p.1 == path) with
  | some p => p.2
  | none => []

/-- Create or overwrite a file. -/
def fsWrite (fs : FileMap) (path : String) (content : List Nat) : FileMap :=
  if fs.any (fun p => p.1 == path) then
    fs.map (fun p => if p.1 == path then (path, content) else p)
  else fs ++ [(path, content)]

/-- Delete a file (`unlink`). -/
def fsRemove (fs : FileMap) (path : String) : FileMap :=
  fs.filter (fun p => p.1 != path)

/-- The container probes and entry readers of the stdlib `zipfile`/`tarfile`
modules, abstracted as functions of the file content alone (they sniff
magic bytes and structure, never the file name). -/
structure ArchiveOps where
  isZip : List Nat → Bool
  isTar : List Nat → Bool
  zipEntries : List Nat → List (String × List Nat)
  tarEntries : List Nat → List (String × List Nat)

/-- `extractall(target_dir)`: write every entry under the target directory. -/
def extractEntries (fs : FileMap) (targetDir : String)
    (entries : List (String × List Nat)) : FileMap :=
  entries.foldl (fun f e => fsWrite f (joinPath targetDir e.1) e.2) fs

/-- `extract_archive_if_supported(archive_path, target_dir)` from the source:
probe for zip first, then tar (any compression); on a match extract every
entry into the target directory and return true, otherwise leave the store
untouched and return false. -/
def extract_archive_if_supported (ops : ArchiveOps) (fs : FileMap)
    (archive_path target_dir : String) : FileMap × Bool :=
  let content := fsRead fs archive_path
  if ops.isZip content then
    (extractEntries fs target_dir (ops.zipEntries content), true)
  else if ops.isTar content then
    (extractEntries fs target_dir (ops.tarEntries content), true)
  else (fs, false)

/-- The caller pattern of `main` (lines 394-395 and 408-409 of the source):
when `extract_archive_if_supported` answers true the archive file is
unlinked. -/
def extractAndUnlink (ops : ArchiveOps) (fs : FileMap)
    (archive_path target_dir : String) : FileMap × Bool :=
  let (fs2, ok) := extract_archive_if_supported ops fs archive_path target_dir
  if ok then (fsRemove fs2 archive_path, true) else (fs2, false)

/-- A directory tree as `os.walk` and `iterdir` observe it: the set of
directories and the set of files, each an absolute path as a component list.
The search roots handed to the source exist, so they are listed in `dirs`. -/
structure DirTree where
  dirs : List (List String)
  files : List (List String)

/-- Names of the immediate subdirectories of `d`. -/
def subdirNamesOf (t : DirTree) (d : List String) : List String :=
  (t.dirs.filter (fun p => p.length == d.length + 1 && d.isPrefixOf p)).map
    (fun p => p.getLastD "")

/-- Names of the files directly inside `d`. -/
def dirFilesOf (t : DirTree) (d : List String) : List String :=
  (t.files.filter (fun p => p.length == d.length + 1 && d.isPrefixOf p)).map
    (fun p => p.getLastD "")

/-- Names of all immediate children (`iterdir`) of `d`. -/
def childNamesOf (t : DirTree) (d : List String) : List String :=
  subdirNamesOf t d ++ dirFilesOf t d

/-- The structural signature of lines 263-265: at least one `fold_*` immediate
subdirectory and a `plans.json` or `dataset.json` file. -/
def isModelDir (t : DirTree) (d : List String) : Bool :=
  (subdirNamesOf t d).any (fun n => "fold_".data.isPrefixOf n.data) &&
    ((dirFilesOf t d).contains "plans.json" ||
      (dirFilesOf t d).contains "dataset.json")

/-- Code-point lexicographic comparison, Python string `<`. -/
def charListLt : List Char → List Char → Bool
  | [], [] => false
  | [], _ :: _ => true
  | _ :: _, [] => false
  | a :: as, b :: bs =>
    if a.toNat < b.toNat then true
    else if b.toNat < a.toNat then false
    else charListLt as bs

/-- The sort key of line 269: `(len(path.parts), str(path))`. -/
def pathLt (a b : List String) : Bool :=
  decide (a.length < b.length) ||
    (a.length == b.length &&
      charListLt (List.intercalate ['/'] (a.map String.data))
        (List.intercalate ['/'] (b.map String.data)))

/-- `sorted(candidates, key=...)[0]`: the least element (stable, so ties keep
the earlier candidate; distinct paths never tie). -/
def minByPathKey : List (List String) → Option (List String)
  | [] => none
  | d :: ds => some (ds.foldl (fun best x => if pathLt x best then x else best) d)

/-- `find_nnunet_model_dir(search_root)` from the source: walk every directory
under the root, keep those matching the model signature, return the
shallowest (ties by path string). -/
def find_nnunet_model_dir (t : DirTree) (root : List String) :
    Option (List String) :=
  minByPathKey ((t.dirs.filter (fun d => root.isPrefixOf d)).filter
    (fun d => isModelDir t d))

/-- Relocate one path under a move of `src`'s children into `dst`
(`shutil.move` of each immediate child carries its whole subtree). -/
def movePath (src dst p : List String) : List String :=
  if src.isPrefixOf p && decide (src.length < p.length) then
    dst ++ p.drop src.length
  else p

/-- Move every immediate child of `src` (with its subtree) into `dst`. -/
def moveChildren (t : DirTree) (src dst : List String) : DirTree :=
  ⟨t.dirs.map (movePath src dst), t.files.map (movePath src dst)⟩

/-- The upward `rmdir` walk of lines 294-300: starting at the emptied model
directory, remove each empty directory and step to its parent, stopping at
the target or at the first non-empty directory.  `fuel` bounds the walk. -/
def rmdirWalk : Nat → DirTree → List String → List String → DirTree
  | 0, t, _, _ => t
  | fuel + 1, t, parent, target =>
    if parent == target then t
    else if (childNamesOf t parent).isEmpty then
      rmdirWalk fuel ⟨t.dirs.filter (fun d => d != parent), t.files⟩
        parent.dropLast target
    else t

/-- `flatten_model_dir_if_needed(target_dir)` from the source. -/
def flatten_model_dir_if_needed (t : DirTree) (target_dir : List String) :
    DirTree × Option (List String) :=
  match find_nnunet_model_dir t target_dir with
  | none => (t, none)
  | some model_dir =>
    if model_dir == target_dir then (t, some model_dir)
    else
      let destination_conflicts := (childNamesOf t model_dir).filter
        (fun n => (childNamesOf t target_dir).contains n)
      if !destination_conflicts.isEmpty then (t, some model_dir)
      else
        let t2 := moveChildren t model_dir target_dir
        let t3 := rmdirWalk model_dir.length t2 model_dir target_dir
        (t3, find_nnunet_model_dir t3 target_dir)

/-- Accumulator-based splitting on slashes. -/
def splitAccum : List Char → List Char → List String
  | acc, [] => [String.mk acc.reverse]
  | acc, c :: cs =>
    if c == '/' then String.mk acc.reverse :: splitAccum [] cs
    else splitAccum (c :: acc) cs

/-- Split a path string on slashes. -/
def splitSlash (s : String) : List String :=
  splitAccum [] s.data

/-- Resolve `.`, `..` and empty components, as the filesystem resolves the
path the script opens. -/
def normPath (s : String) : List String :=
  (splitSlash s).foldl
    (fun acc comp =>
      if comp == "" || comp == "." then acc
      else if comp == ".." then acc.dropLast
      else acc ++ [comp])
    []

/-- Whether the file at `p` lies inside directory `dir` after resolution. -/
def liesUnder (p dir : String) : Bool :=
  (normPath dir).isPrefixOf (normPath p)

/-- A quote as a one-character string, for building HTML fixtures. -/
def q1 : String := String.mk [qc]

/-- An interstitial document that carries both a `downloadUrl` field and a
`confirm=` token. -/
def cexDoc : String :=
  "x " ++ q1 ++ "downloadUrl" ++ q1 ++ ":" ++ q1 ++ "https://direct" ++ q1 ++
    " y confirm=tok&"

/-- A network on which the first seed answers with `cexDoc` and every other
URL answers with a token-free interstitial. -/
def cexEnv : Env :=
  ⟨fun u =>
    if u == "https://drive.google.com/uc?export=download&id=f" then
      ⟨[("Content-Type", "text/html")], cexDoc, []⟩
    else ⟨[("Content-Type", "text/html")], "", []⟩⟩

/-- A network on which every URL answers with an empty interstitial. -/
def bareEnv : Env :=
  ⟨fun _ => ⟨[("Content-Type", "text/html")], "", []⟩⟩

/-- A network whose every response is an attachment whose filename header
climbs out of the output directory. -/
def travEnv : Env :=
  ⟨fun _ =>
    ⟨[("Content-Disposition",
        "attachment; filename=" ++ q1 ++ "../secret" ++ q1)], "", []⟩⟩

/-- An HTML fixture with a `downloadUrl` field for the short-circuit witness. -/
def w4html : String :=
  "a " ++ q1 ++ "downloadUrl" ++ q1 ++ ":" ++ q1 ++ "https:\\/\\/x.com\\u003d1&amp;b" ++
    q1 ++ " <form id=" ++ q1 ++ "download-form" ++ q1 ++ " action=" ++ q1 ++
    "https://ignored" ++ q1 ++ ">"

/-- An HTML fixture with only a download form and one hidden input. -/
def w9html : String :=
  "<form id=" ++ q1 ++ "download-form" ++ q1 ++ " action=" ++ q1 ++
    "https://a.b/c" ++ q1 ++ "><input type=" ++ q1 ++ "hidden" ++ q1 ++
    " name=" ++ q1 ++ "k" ++ q1 ++ " value=" ++ q1 ++ "v 1" ++ q1 ++ "></form>"

/-- Concrete archive operations for the witness: a two-byte magic marks a
zip with one entry. -/
def opsZW : ArchiveOps :=
  ⟨fun c => c == [80, 75], fun _ => false, fun _ => [("e1", [7])], fun _ => []⟩

/-- A tree whose nested model directory shares the child name `c` with the
target root. -/
def collisionTree : DirTree :=
  ⟨[["t"], ["t", "m"], ["t", "m", "fold_0"]],
   [["t", "m", "plans.json"], ["t", "c"], ["t", "m", "c"]]⟩

/-- Folding append over chunks writes their concatenation after the start. -/
theorem foldl_append_eq (chunks : List (List Nat)) :
    ∀ start : List Nat,
      chunks.foldl (fun f ch => f ++ ch) start = start ++ chunks.flatten := by
  induction chunks with
  | nil => intro start; simp
  | cons c cs ih => intro start; simp [ih, List.append_assoc]

/-- With enough fuel, the chunks concatenate back to the stream. -/
theorem chunksOfAux_flatten :
    ∀ (fu : Nat) (l : List Nat), l.length ≤ fu → (chunksOfAux fu l).flatten = l := by
  intro fu
  induction fu with
  | zero =>
    intro l h
    have : l = [] := List.length_eq_zero.mp (Nat.le_zero.mp h)
    simp [this, chunksOfAux]
  | succ fu ih =>
    intro l h
    match l with
    | [] => simp [chunksOfAux]
    | c :: cs =>
      rw [chunksOfAux, List.flatten_cons, ih ((c :: cs).drop chunkSize) ?_,
        List.take_append_drop]
      simp only [List.length_drop, List.length_cons]
      have : 0 < chunkSize := by simp [chunkSize]
      simp only [List.length_cons] at h
      omega

/-- The chunks of a stream concatenate back to the stream. -/
theorem chunksOf_flatten (l : List Nat) : (chunksOf l).flatten = l :=
  chunksOfAux_flatten (l.length + 1) l (by omega)

/-- The final file content of one streaming call: the chunk loop appends the
whole body after the initial content (empty for `"wb"`). -/
theorem stream_final (resp : WResp) (fileOnDisk : List Nat) (append : Bool)
    (initial_bytes : Nat) :
    (stream_download_to_file resp fileOnDisk append initial_bytes).1 =
      (if append then fileOnDisk else []) ++ resp.body := by
  simp [stream_download_to_file, foldl_append_eq, chunksOf_flatten]

/-- C1.  Resume idempotence: persisting onto a file holding the first
`k` of `S` bytes, when the reissued range request answers 206 with the
remaining `S - k` bytes, appends them, giving exactly the `S`-byte content a
from-scratch streaming of the full body produces; and the progress total of
the 206 branch adds the initial `k` bytes to the remote range size. -/
theorem resume_idempotence_206 (full : List Nat) (k : Nat) (origResp : WResp)
    (scratchStatus scratchLen : Option Nat) (scratchRange : Except Nat WResp)
    (h1 : 0 < k) (h2 : k < full.length) :
    save_download_response (some (full.take k)) origResp
        (Except.ok ⟨some 206, some (full.length - k), full.drop k⟩) =
      Except.ok full ∧
    save_download_response none ⟨scratchStatus, scratchLen, full⟩ scratchRange =
      Except.ok full ∧
    (stream_download_to_file ⟨some 206, some (full.length - k), full.drop k⟩
        (full.take k) true k).2 = full.length := by
  have hlen : (full.take k).length = k := by
    rw [List.length_take]; omega
  refine ⟨?_, ?_, ?_⟩
  · simp only [save_download_response, hlen]
    rw [if_neg (by omega)]
    have hst : statusCodeOf ⟨some 206, some (full.length - k), full.drop k⟩ = 206 := rfl
    simp only [hst, if_pos rfl, stream_final]
    simp [List.take_append_drop]
  · simp [save_download_response, stream_final]
  · simp only [stream_download_to_file]
    have hpos : 0 < full.length - k := by omega
    simp only [Bool.true_and, decide_eq_true_eq, if_pos hpos]
    omega

/-- Witness for C1 at `full = [1, 2, 3, 4]`, `k = 2`. -/
theorem resume_idempotence_206_witness :
    save_download_response (some ([1, 2, 3, 4].take 2)) ⟨some 200, some 4, [1, 2, 3, 4]⟩
        (Except.ok ⟨some 206, some ([1, 2, 3, 4].length - 2), [1, 2, 3, 4].drop 2⟩) =
      Except.ok [1, 2, 3, 4] ∧
    save_download_response none ⟨some 200, some 4, [1, 2, 3, 4]⟩ (Except.error 0) =
      Except.ok [1, 2, 3, 4] ∧
    (stream_download_to_file ⟨some 206, some ([1, 2, 3, 4].length - 2), [1, 2, 3, 4].drop 2⟩
        ([1, 2, 3, 4].take 2) true 2).2 = [1, 2, 3, 4].length :=
  resume_idempotence_206 [1, 2, 3, 4] 2 ⟨some 200, some 4, [1, 2, 3, 4]⟩ (some 200)
    (some 4) (Except.error 0) (by decide) (by decide)

/-- C2.  Resume-complete detection: a 416 error on the reissued range request
for a nonempty existing file performs no write and returns success with the
file unchanged. -/
theorem resume_complete_416 (existing : List Nat) (resp : WResp)
    (h : 0 < existing.length) :
    save_download_response (some existing) resp (Except.error 416) =
      Except.ok existing := by
  simp only [save_download_response]
  rw [if_neg (by omega)]
  simp

/-- Witness for C2 at a one-byte existing file. -/
theorem resume_complete_416_witness :
    save_download_response (some [5]) ⟨none, none, []⟩ (Except.error 416) =
      Except.ok [5] :=
  resume_complete_416 [5] ⟨none, none, []⟩ (by decide)

/-- C3.  Range-ignored fallback: a non-206 response (after the
`getcode() or 200` normalization) to the reissued range request rewrites the
file from offset 0; the final content is exactly the new body, with the old
bytes discarded. -/
theorem range_ignored_restart (existing : List Nat) (resp resumed : WResp)
    (h : 0 < existing.length) (hs : statusCodeOf resumed ≠ 206) :
    save_download_response (some existing) resp (Except.ok resumed) =
      Except.ok resumed.body := by
  simp only [save_download_response]
  rw [if_neg (by omega), if_neg hs, stream_final]
  simp

/-- Witness for C3: a 200 answer to the range request on a one-byte file. -/
theorem range_ignored_restart_witness :
    save_download_response (some [9]) ⟨none, none, []⟩
        (Except.ok ⟨some 200, some 2, [1, 2]⟩) = Except.ok [1, 2] :=
  range_ignored_restart [9] ⟨none, none, []⟩ ⟨some 200, some 2, [1, 2]⟩
    (by decide) (by decide)

/-- Substring containment agrees with the infix decomposition. -/
theorem containsSub_iff (hay needle : List Char) :
    containsSub hay needle = true ↔ ∃ p q, hay = p ++ needle ++ q := by
  induction hay with
  | nil =>
    simp only [containsSub, List.isEmpty_iff]
    constructor
    · rintro rfl; exact ⟨[], [], rfl⟩
    · rintro ⟨p, q, h⟩
      have h2 := List.append_eq_nil.mp h.symm
      have h3 := List.append_eq_nil.mp h2.1
      simp [h3.2]
  | cons c t ih =>
    simp only [containsSub, Bool.or_eq_true]
    constructor
    · rintro (h | h)
      · rcases List.isPrefixOf_iff_prefix.mp h with ⟨q, hq⟩
        exact ⟨[], q, by simp [hq.symm]⟩
      · rcases ih.mp h with ⟨p, q, hpq⟩
        exact ⟨c :: p, q, by simp [hpq]⟩
    · rintro ⟨p, q, hpq⟩
      match p, hpq with
      | [], hpq =>
        left
        exact List.isPrefixOf_iff_prefix.mpr ⟨q, by simpa using hpq.symm⟩
      | a :: p, hpq =>
        right
        apply ih.mpr
        obtain ⟨-, h2⟩ : c = a ∧ t = p ++ (needle ++ q) := by simpa using hpq
        exact ⟨p, q, by simpa using h2⟩

/-- C8.  Response classification: attachment in Content-Disposition
(case-insensitive) forces a download verdict regardless of Content-Type;
otherwise text/html in Content-Type means interstitial; otherwise download.
Only the two headers are read: the verdict is independent of the body (and
of the cookies set). -/
theorem classifier_contract (hs : List (String × String)) (b b2 : String)
    (ck ck2 : List (String × String)) :
    is_download_response ⟨hs, b, ck⟩ = is_download_response ⟨hs, b2, ck2⟩ ∧
    (is_download_response ⟨hs, b, ck⟩ = true ↔
      (∃ p q, (headerGet hs "Content-Disposition").data.map Char.toLower =
          p ++ "attachment".data ++ q) ∨
      ¬ ∃ p q, (headerGet hs "Content-Type").data.map Char.toLower =
          p ++ "text/html".data ++ q) := by
  constructor
  · rfl
  · simp only [is_download_response, ← containsSub_iff]
    cases hcd : containsSub ((headerGet hs "Content-Disposition").data.map Char.toLower)
        "attachment".data <;>
      cases hct : containsSub ((headerGet hs "Content-Type").data.map Char.toLower)
          "text/html".data <;>
      simp [hcd, hct]

/-- C7.  Flatten collision safety: when the found model directory is strictly
below the target and one of its child names already exists in the target, the
flattener changes nothing on disk and returns the nested directory as found. -/
theorem flatten_collision_safety (t : DirTree) (target md : List String)
    (hfind : find_nnunet_model_dir t target = some md)
    (hne : md ≠ target)
    (hconf : ((childNamesOf t md).filter
        (fun n => (childNamesOf t target).contains n)).isEmpty = false) :
    flatten_model_dir_if_needed t target = (t, some md) := by
  have h1 : (md == target) = false := beq_eq_false_iff_ne.mpr hne
  simp only [flatten_model_dir_if_needed, hfind, h1, Bool.false_eq_true, if_false,
    hconf, Bool.not_false, if_true]

/-- Witness for C7: target `t` and nested model dir `t/m` both contain `c`. -/
theorem flatten_collision_safety_witness :
    flatten_model_dir_if_needed collisionTree ["t"] =
      (collisionTree, some ["t", "m"]) :=
  flatten_collision_safety collisionTree ["t"] ["t", "m"] (by decide) (by decide)
    (by decide)

/-- C5.  Archive-normalizer contract: the verdict is true exactly when a
container probe matches (zip first, then tar); the probes see only the file
content, so the verdict is invariant under renaming; a non-match leaves the
store untouched; a match extracts every entry into the target directory and
(at the call sites of `main`) then unlinks the archive. -/
theorem archive_normalizer_contract (ops : ArchiveOps) (fs fs2 : FileMap)
    (a a2 t : String) :
    ((extract_archive_if_supported ops fs a t).2 =
      (ops.isZip (fsRead fs a) || ops.isTar (fsRead fs a))) ∧
    (fsRead fs2 a2 = fsRead fs a →
      (extract_archive_if_supported ops fs2 a2 t).2 =
        (extract_archive_if_supported ops fs a t).2) ∧
    (ops.isZip (fsRead fs a) = false → ops.isTar (fsRead fs a) = false →
      extract_archive_if_supported ops fs a t = (fs, false)) ∧
    (ops.isZip (fsRead fs a) = true →
      extractAndUnlink ops fs a t =
        (fsRemove (extractEntries fs t (ops.zipEntries (fsRead fs a))) a, true)) ∧
    (ops.isZip (fsRead fs a) = false → ops.isTar (fsRead fs a) = true →
      extractAndUnlink ops fs a t =
        (fsRemove (extractEntries fs t (ops.tarEntries (fsRead fs a))) a, true)) := by
  refine ⟨?_, ?_, ?_, ?_, ?_⟩
  · cases hz : ops.isZip (fsRead fs a) <;> cases ht : ops.isTar (fsRead fs a) <;>
      simp [extract_archive_if_supported, hz, ht]
  · intro hEq
    simp only [extract_archive_if_supported, hEq]
    cases hz : ops.isZip (fsRead fs a) <;> cases ht : ops.isTar (fsRead fs a) <;>
      simp [hz, ht]
  · intro hz ht
    simp [extract_archive_if_supported, hz, ht]
  · intro hz
    simp [extractAndUnlink, extract_archive_if_supported, hz]
  · intro hz ht
    simp [extractAndUnlink, extract_archive_if_supported, hz, ht]

/-- Witness for C5: a two-byte zip magic under a non-archive name is
extracted and unlinked; plain content is left untouched. -/
theorem archive_normalizer_contract_witness :
    extractAndUnlink opsZW [("t/a.bin", [80, 75])] "t/a.bin" "t" =
      ([("t/e1", [7])], true) ∧
    extract_archive_if_supported opsZW [("t/a.zip", [9, 9])] "t/a.zip" "t" =
      ([("t/a.zip", [9, 9])], false) := by
  constructor
  · have h := (archive_normalizer_contract opsZW [("t/a.bin", [80, 75])] []
      "t/a.bin" "x" "t").2.2.2.1 (by decide)
    rw [h]; decide
  · have h := (archive_normalizer_contract opsZW [("t/a.zip", [9, 9])] []
      "t/a.zip" "x" "t").2.2.1 (by decide) (by decide)
    rw [h]

/-- C4, counterexample.  On a document carrying both a `downloadUrl` field
and a `confirm=` token, the resolver still performs confirm-token extraction
on that same document once the direct URL fails to classify as a download:
the request trace shows both confirm-derived URLs being issued. -/
theorem parser_shortcircuit_cex :
    (research downloadUrlPat cexDoc.data).isSome = true ∧
    extract_confirm_token cexDoc [] = some "tok" ∧
    (download_from_google_drive cexEnv "f" "out" "fb").2 =
      ["https://drive.google.com/uc?export=download&id=f", "https://direct",
       "https://drive.google.com/uc?export=download&confirm=tok&id=f",
       "https://drive.usercontent.google.com/download?id=f&export=download&confirm=tok",
       "https://drive.usercontent.google.com/download?id=f&export=download"] :=
  ⟨by decide, by decide, by decide⟩

/-- C4, amended.  Within `extract_download_url` the heuristics short-circuit:
whenever the `downloadUrl` pattern matches, its unescaped capture is returned
immediately and the download-form heuristics are never consulted (the result
is independent of any forms in the document and of the identifier). -/
theorem parser_shortcircuit_amended (html_text file_id : String) (g : List Char)
    (h : searchGroup1 downloadUrlPat html_text.data = some g) :
    extract_download_url html_text file_id =
      some (decode_possible_url (String.mk g)) := by
  simp [extract_download_url, h]

/-- Witness for the amended C4 on a document holding both a `downloadUrl`
field and a download form. -/
theorem parser_shortcircuit_amended_witness :
    extract_download_url w4html "FID" =
      some (decode_possible_url (String.mk "https:\\/\\/x.com\\u003d1&amp;b".data)) :=
  parser_shortcircuit_amended w4html "FID" "https:\\/\\/x.com\\u003d1&amp;b".data
    (by decide)

/-- C10.  The Content-Disposition filename is joined to the output directory
with no sanitization: a header carrying `filename="../secret"` makes the
resolver hand back an output path that resolves outside the caller-supplied
output directory. -/
theorem filename_traversal_unsafe :
    extract_filename (travEnv.fetch "u") "fb" = "../secret" ∧
    download_from_google_drive travEnv "f" "out" "fb" =
      (Except.ok ("https://drive.google.com/uc?export=download&id=f", "out/../secret"),
       ["https://drive.google.com/uc?export=download&id=f"]) ∧
    joinPath "out" "../secret" = "out/../secret" ∧
    liesUnder "out/../secret" "out" = false ∧
    liesUnder (joinPath "out" "weights.zip") "out" = true :=
  ⟨by decide, rfl, by decide, by decide, by decide⟩

/-- Appending a fresh binding is only reached by a lookup of its own key. -/
theorem dictLookup_append_absent (d : List (String × String)) (k v : String)
    (h : d.any (fun p => p.1 == k) = false) :
    dictLookup (d ++ [(k, v)]) k = some v := by
  induction d with
  | nil => simp [dictLookup, List.find?]
  | cons p ds ih =>
    simp only [List.any_cons, Bool.or_eq_false_iff] at h
    simp only [List.cons_append, dictLookup, List.find?, h.1]
    exact ih h.2

/-- A lookup of another key passes over an appended binding. -/
theorem dictLookup_append_other (d : List (String × String)) (k v k2 : String)
    (hne : k2 ≠ k) :
    dictLookup (d ++ [(k, v)]) k2 = dictLookup d k2 := by
  induction d with
  | nil =>
    simp only [List.nil_append, dictLookup, List.find?,
      beq_eq_false_iff_ne.mpr (Ne.symm hne)]
  | cons p ds ih =>
    simp only [List.cons_append, dictLookup, List.find?]
    cases hp : p.1 == k2
    · exact ih
    · rfl

/-- `setdefault` keeps the stored value of a present key. -/
theorem dictSetdefault_lookup_present (d : List (String × String)) (k v : String)
    (h : dictHasKey d k = true) :
    dictLookup (dictSetdefault d k v) k = dictLookup d k := by
  simp only [dictSetdefault, dictHasKey] at *
  rw [h]
  rfl

/-- `setdefault` installs the default for an absent key. -/
theorem dictSetdefault_lookup_absent (d : List (String × String)) (k v : String)
    (h : dictHasKey d k = false) :
    dictLookup (dictSetdefault d k v) k = some v := by
  simp only [dictSetdefault, dictHasKey] at *
  rw [h]
  simp only [Bool.false_eq_true, if_false]
  exact dictLookup_append_absent d k v h

/-- `setdefault` never changes the binding of another key. -/
theorem dictSetdefault_lookup_other (d : List (String × String)) (k v k2 : String)
    (hne : k2 ≠ k) :
    dictLookup (dictSetdefault d k v) k2 = dictLookup d k2 := by
  simp only [dictSetdefault]
  split
  · rfl
  · exact dictLookup_append_other d k v k2 hne

/-- `setdefault` never changes the presence of another key. -/
theorem dictSetdefault_hasKey_other (d : List (String × String)) (k v k2 : String)
    (hne : k2 ≠ k) :
    dictHasKey (dictSetdefault d k v) k2 = dictHasKey d k2 := by
  simp only [dictSetdefault, dictHasKey]
  split
  · rfl
  · simp [List.any_append, beq_eq_false_iff_ne.mpr (Ne.symm hne)]

/-- C9.  Download-form URL construction: with no `downloadUrl` field and a
matching `download-form` (id before or after action), the result is the
unescaped action followed by a query string encoding exactly the name/value
pairs of the hidden inputs, with `id` and `export` defaulted only when those
keys are absent among the hidden inputs, and every other key bound exactly
as the hidden inputs bind it. -/
theorem form_url_construction (html_text file_id : String) (g : List Char)
    (hn : searchGroup1 downloadUrlPat html_text.data = none)
    (hf : formActionGroup html_text = some g) :
    extract_download_url html_text file_id =
      some (String.mk (htmlUnescape g) ++ "?" ++
        urlencode (formParams html_text file_id)) ∧
    formParams html_text file_id =
      dictSetdefault (dictSetdefault (hiddenParams html_text) "id" file_id)
        "export" "download" ∧
    (dictHasKey (hiddenParams html_text) "id" = true →
      dictLookup (formParams html_text file_id) "id" =
        dictLookup (hiddenParams html_text) "id") ∧
    (dictHasKey (hiddenParams html_text) "id" = false →
      dictLookup (formParams html_text file_id) "id" = some file_id) ∧
    (dictHasKey (hiddenParams html_text) "export" = true →
      dictLookup (formParams html_text file_id) "export" =
        dictLookup (hiddenParams html_text) "export") ∧
    (dictHasKey (hiddenParams html_text) "export" = false →
      dictLookup (formParams html_text file_id) "export" = some "download") ∧
    (∀ k2 : String, k2 ≠ "id" → k2 ≠ "export" →
      dictLookup (formParams html_text file_id) k2 =
        dictLookup (hiddenParams html_text) k2) := by
  have hio : ("id" : String) ≠ "export" := by decide
  refine ⟨?_, rfl, ?_, ?_, ?_, ?_, ?_⟩
  · simp [extract_download_url, hn, hf, formParams]
  · intro h
    rw [show formParams html_text file_id =
        dictSetdefault (dictSetdefault (hiddenParams html_text) "id" file_id)
          "export" "download" from rfl,
      dictSetdefault_lookup_other _ "export" "download" "id" hio,
      dictSetdefault_lookup_present _ "id" file_id h]
  · intro h
    rw [show formParams html_text file_id =
        dictSetdefault (dictSetdefault (hiddenParams html_text) "id" file_id)
          "export" "download" from rfl,
      dictSetdefault_lookup_other _ "export" "download" "id" hio,
      dictSetdefault_lookup_absent _ "id" file_id h]
  · intro h
    rw [show formParams html_text file_id =
        dictSetdefault (dictSetdefault (hiddenParams html_text) "id" file_id)
          "export" "download" from rfl,
      dictSetdefault_lookup_present _ "export" "download"
        (by rw [dictSetdefault_hasKey_other _ "id" file_id "export" hio.symm]; exact h),
      dictSetdefault_lookup_other _ "id" file_id "export" hio.symm]
  · intro h
    rw [show formParams html_text file_id =
        dictSetdefault (dictSetdefault (hiddenParams html_text) "id" file_id)
          "export" "download" from rfl,
      dictSetdefault_lookup_absent _ "export" "download"
        (by rw [dictSetdefault_hasKey_other _ "id" file_id "export" hio.symm]; exact h)]
  · intro k2 hki hke
    rw [show formParams html_text file_id =
        dictSetdefault (dictSetdefault (hiddenParams html_text) "id" file_id)
          "export" "download" from rfl,
      dictSetdefault_lookup_other _ "export" "download" k2 hke,
      dictSetdefault_lookup_other _ "id" file_id k2 hki]

/-- Witness for C9 on a fixture with one hidden input `k=v 1`. -/
theorem form_url_construction_witness :
    extract_download_url w9html "FID" =
      some "https://a.b/c?k=v+1&id=FID&export=download" := by
  have h := (form_url_construction w9html "FID" "https://a.b/c".data
    (by decide) (by decide)).1
  rw [h]
  decide

/-- One open, in closed form: the state gains the URL on both `attempts` and
the trace, and the verdict is the classification of the fetched response. -/
theorem attemptOpen_eq (env : Env) (fb od : String) (st : NetSt) (u : String) :
    attemptOpen env fb od st u =
      (⟨st.attempts ++ [u], st.trace ++ [u], st.jar ++ (env.fetch u).cookies⟩,
       env.fetch u,
       if is_download_response (env.fetch u) then
         some (u, joinPath od (extract_filename (env.fetch u) fb))
       else none) := by
  simp only [attemptOpen, openUrl]
  split <;> simp [*]

/-- The confirm-URL loop extends `attempts` and the trace by one common
suffix. -/
theorem tryUrlList_delta (env : Env) (fb od : String) :
    ∀ (us : List String) (st : NetSt), ∃ l : List String,
      (tryUrlList env fb od st us).1.attempts = st.attempts ++ l ∧
      (tryUrlList env fb od st us).1.trace = st.trace ++ l := by
  intro us
  induction us with
  | nil => intro st; exact ⟨[], by simp [tryUrlList], by simp [tryUrlList]⟩
  | cons u us ih =>
    intro st
    simp only [tryUrlList, attemptOpen_eq]
    cases hv : is_download_response (env.fetch u)
    · simp only [hv, Bool.false_eq_true, if_false]
      obtain ⟨l, hl1, hl2⟩ := ih
        ⟨st.attempts ++ [u], st.trace ++ [u], st.jar ++ (env.fetch u).cookies⟩
      exact ⟨u :: l, by simp [hl1], by simp [hl2]⟩
    · simp only [hv, if_true]
      exact ⟨[u], by simp, by simp⟩

/-- The parser-derived branch extends `attempts` and the trace by one common
suffix. -/
theorem parsedStep_delta (env : Env) (fid fb od : String) (st2 : NetSt)
    (html_text : String) :
    ∃ l : List String,
      (parsedStep env fid fb od st2 html_text).1.attempts = st2.attempts ++ l ∧
      (parsedStep env fid fb od st2 html_text).1.trace = st2.trace ++ l := by
  simp only [parsedStep]
  cases hE : extract_download_url html_text fid with
  | none => exact ⟨[], by simp, by simp⟩
  | some u =>
    simp only [attemptOpen_eq]
    exact ⟨[u], by simp, by simp⟩

/-- One seed iteration extends `attempts` and the trace by the seed URL
followed by one common derived suffix. -/
theorem processSeed_delta (env : Env) (fid fb od : String) (st : NetSt)
    (base : String) :
    ∃ l : List String,
      (processSeed env fid fb od st base).1.attempts = st.attempts ++ (base :: l) ∧
      (processSeed env fid fb od st base).1.trace = st.trace ++ (base :: l) := by
  simp only [processSeed, attemptOpen_eq]
  cases hv : is_download_response (env.fetch base)
  · simp only [hv, Bool.false_eq_true, if_false]
    obtain ⟨l2, hp1, hp2⟩ := parsedStep_delta env fid fb od
      ⟨st.attempts ++ [base], st.trace ++ [base], st.jar ++ (env.fetch base).cookies⟩
      (env.fetch base).body
    cases hb : (parsedStep env fid fb od
        ⟨st.attempts ++ [base], st.trace ++ [base], st.jar ++ (env.fetch base).cookies⟩
        (env.fetch base).body).2 with
    | some s => exact ⟨l2, by simp [hp1], by simp [hp2]⟩
    | none =>
      cases hT : extract_confirm_token (env.fetch base).body
          (parsedStep env fid fb od
            ⟨st.attempts ++ [base], st.trace ++ [base],
              st.jar ++ (env.fetch base).cookies⟩
            (env.fetch base).body).1.jar with
      | some tok =>
        obtain ⟨l3, h3a, h3t⟩ := tryUrlList_delta env fb od
          (confirmSeedUrls fid tok)
          (parsedStep env fid fb od
            ⟨st.attempts ++ [base], st.trace ++ [base],
              st.jar ++ (env.fetch base).cookies⟩
            (env.fetch base).body).1
        exact ⟨l2 ++ l3, by simp [h3a, hp1], by simp [h3t, hp2]⟩
      | none => exact ⟨l2, by simp [hp1], by simp [hp2]⟩
  · simp only [hv, if_true]
    exact ⟨[], by simp, by simp⟩

/-- C6.  Resolution-exhaustion diagnostics: whenever the resolver fails, the
attempt list it raises is exactly the trace of every URL requested during the
run, in issue order (first seed, its derived URLs, second seed, its derived
URLs), beginning with the first seed URL; no requested URL is omitted. -/
theorem resolution_exhaustion (env : Env) (file_id output_dir fallback : String)
    (e tr : List String)
    (h : download_from_google_drive env file_id output_dir fallback =
      (Except.error e, tr)) :
    e = tr ∧
    e.head? = some ("https://drive.google.com/uc?export=download&id=" ++ file_id) := by
  simp only [download_from_google_drive, seedUrls, seedLoop] at h
  obtain ⟨l1, h1a, h1t⟩ := processSeed_delta env file_id fallback output_dir
    ⟨[], [], []⟩ ("https://drive.google.com/uc?export=download&id=" ++ file_id)
  cases hr1 : (processSeed env file_id fallback output_dir ⟨[], [], []⟩
      ("https://drive.google.com/uc?export=download&id=" ++ file_id)).2 with
  | some s => simp [hr1] at h
  | none =>
    simp only [hr1] at h
    obtain ⟨l2, h2a, h2t⟩ := processSeed_delta env file_id fallback output_dir
      (processSeed env file_id fallback output_dir ⟨[], [], []⟩
        ("https://drive.google.com/uc?export=download&id=" ++ file_id)).1
      ("https://drive.usercontent.google.com/download?id=" ++ file_id ++
        "&export=download")
    cases hr2 : (processSeed env file_id fallback output_dir
        (processSeed env file_id fallback output_dir ⟨[], [], []⟩
          ("https://drive.google.com/uc?export=download&id=" ++ file_id)).1
        ("https://drive.usercontent.google.com/download?id=" ++ file_id ++
          "&export=download")).2 with
    | some s => simp [hr2] at h
    | none =>
      simp only [hr2, Prod.mk.injEq, Except.error.injEq] at h
      obtain ⟨he, ht⟩ := h
      subst he
      subst ht
      refine ⟨?_, ?_⟩
      · rw [h2a, h2t, h1a, h1t]
      · rw [h2a, h1a]
        simp

/-- Witness for C6: on a network of empty interstitials both seeds fail and
the raised list is exactly the two requests issued, in order. -/
theorem resolution_exhaustion_witness :
    (["https://drive.google.com/uc?export=download&id=f",
      "https://drive.usercontent.google.com/download?id=f&export=download"] :
        List String) =
      ["https://drive.google.com/uc?export=download&id=f",
       "https://drive.usercontent.google.com/download?id=f&export=download"] ∧
    (["https://drive.google.com/uc?export=download&id=f",
      "https://drive.usercontent.google.com/download?id=f&export=download"] :
        List String).head? =
      some ("https://drive.google.com/uc?export=download&id=" ++ "f") :=
  resolution_exhaustion bareEnv "f" "out" "fb"
    ["https://drive.google.com/uc?export=download&id=f",
     "https://drive.usercontent.google.com/download?id=f&export=download"]
    ["https://drive.google.com/uc?export=download&id=f",
     "https://drive.usercontent.google.com/download?id=f&export=download"]
    rfl
